import Mathlib

/-!
Shallow embedding of `colab_to_sphinx.py`.

The HTML document is modelled as a forest of `Node`s (the parsed tree the
HTML library hands back: tag name, attribute list, children, or a raw text
node).  `html_to_rst`, `extract_toc_structure`, `create_sphinx_project`,
`convert_with_pandoc` and `convert_colab_to_sphinx` are translated
definition by definition; the file system is an explicit state record and
the external pandoc process is an oracle value describing its outcome.
-/

/-- A parsed HTML node: either a raw text node or an element with a tag
name, an attribute list and a list of children. -/
inductive Node where
  | text : String → Node
  | elem : String → List (String × String) → List Node → Node

/-- Python whitespace (the characters `str.strip` and `\s` treat as space). -/
def pyIsSpace (c : Char) : Bool :=
  c = ' ' || c = '\t' || c = '\n' || c = '\r' || c = '\x0b' || c = '\x0c'

/-- Python `str.strip()`: drop whitespace from both ends. -/
def pyStrip (s : String) : String :=
  String.mk (((s.data.dropWhile pyIsSpace).reverse.dropWhile pyIsSpace).reverse)

/-- Helper for `splitNl`: accumulates the current line (reversed). -/
def splitNlAux : List Char → List Char → List String
  | acc, [] => [String.mk acc.reverse]
  | acc, c :: cs =>
    if c = '\n' then String.mk acc.reverse :: splitNlAux [] cs
    else splitNlAux (c :: acc) cs

/-- Python `s.split(chr(10))`: split on each newline, keeping empty pieces. -/
def splitNl (s : String) : List String := splitNlAux [] s.data

/-- Helper for `splitWs`: whitespace-run split, dropping empty pieces. -/
def splitWsAux : List Char → List Char → List String
  | acc, [] => if acc.isEmpty then [] else [String.mk acc.reverse]
  | acc, c :: cs =>
    if pyIsSpace c then
      if acc.isEmpty then splitWsAux [] cs
      else String.mk acc.reverse :: splitWsAux [] cs
    else splitWsAux (c :: acc) cs

/-- Split a string on whitespace runs (how the HTML library tokenizes the
multi-valued `class` attribute into a list of class names). -/
def splitWs (s : String) : List String := splitWsAux [] s.data

/-- Look up an attribute value by name in an attribute list. -/
def lookupAttr (k : String) : List (String × String) → Option String
  | [] => none
  | (a, b) :: rest => if a = k then some b else lookupAttr k rest

/-- Models `element.get(chr(99) ...)`, i.e. `element.get("class", [])`:
the class attribute as a token list, `[]` when absent. -/
def classTokens (attrs : List (String × String)) : List String :=
  match lookupAttr "class" attrs with
  | some v => splitWs v
  | none => []

mutual
/-- Models `element.get_text()`: concatenation of every text node in the
subtree, in document order, with no separators. -/
def getTextN : Node → String
  | .text s => s
  | .elem _ _ cs => getTextL cs
/-- Text extraction over a list of children. -/
def getTextL : List Node → String
  | [] => ""
  | c :: cs => getTextN c ++ getTextL cs
end

mutual
/-- Models `soup.find_all(tags)`: every element of the tree whose tag name
is in `tags`, in document order (pre-order, parents before descendants). -/
def findAllN (tags : List String) : Node → List Node
  | .text _ => []
  | .elem name attrs cs =>
    (if name ∈ tags then [Node.elem name attrs cs] else []) ++ findAllL tags cs
/-- Allowlist scan over a forest (the parsed document is a list of
top-level nodes). -/
def findAllL (tags : List String) : List Node → List Node
  | [] => []
  | c :: cs => findAllN tags c ++ findAllL tags cs
end

/-- The fixed tag allowlist of the walk in `html_to_rst`. -/
def allowTags : List String :=
  ["h1", "h2", "h3", "h4", "h5", "h6", "p", "pre", "code", "ul", "ol", "div"]

/-- The heading tag set used by `extract_toc_structure`. -/
def headingTags : List String := ["h1", "h2", "h3", "h4", "h5", "h6"]

/-- The fixed RST heading marker table `markers` from `html_to_rst`. -/
def markers : List Char := ['=', '-', '^', '\x22', '\x27', '\x60', '+']

/-- Models `markers[min(level-1, len(markers)-1)]`.  The index is always in
range, so the `getD` default is never read. -/
def markerFor (level : Nat) : Char :=
  markers.getD (min (level - 1) (markers.length - 1)) '='

/-- Models `int(element.name[1])` for the tag names `h1`..`h6`. -/
def headingLevel (name : String) : Nat :=
  (name.data.getD 1 '0').toNat - '0'.toNat

/-- Models `element.name.startswith(chr(104))`, i.e. `.startswith("h")`
for the one-character prefix: true iff the first character is `h`. -/
def pyStartsWithH (name : String) : Bool :=
  match name.data with
  | [] => false
  | c :: _ => c = 'h'

/-- Whether a node is an element with tag name `li`. -/
def isLiTag : Node → Bool
  | .text _ => false
  | .elem n _ _ => n = "li"

/-- Models `element.find_all(li-tag, recursive=False)`: the direct children
that are `li` elements, in order. -/
def directLis (children : List Node) : List Node := children.filter isLiTag

/-- The loop body of `html_to_rst`: the lines appended for one matched
element.  Mirrors the if/elif chain of the source; elements matching no
branch append nothing. -/
def emitElement : Node → List String
  | .text _ => []
  | .elem name attrs children =>
    if pyStartsWithH name then
      let text := pyStrip (getTextL children)
      if text = "" then []
      else
        let marker := markerFor (headingLevel name)
        ["", text, String.mk (List.replicate text.length marker), ""]
    else if name = "p" then
      let text := pyStrip (getTextL children)
      if text = "" then [] else [text, ""]
    else if name = "pre" then
      let codeText := getTextL children
      if pyStrip codeText = "" then []
      else
        [".. code-block:: python", ""]
          ++ (splitNl codeText).map (fun l => "   " ++ l) ++ [""]
    else if name = "ul" ∨ name = "ol" then
      ((directLis children).enum.filterMap (fun p =>
        let liText := pyStrip (getTextN p.2)
        if liText = "" then none
        else if name = "ul" then some ("* " ++ liText)
        else some (toString (p.1 + 1) ++ ". " ++ liText)))
        ++ [""]
    else if name = "div" ∧ "output" ∈ classTokens attrs then
      let outputText := pyStrip (getTextL children)
      if outputText = "" then []
      else
        [".. code-block:: text", ""]
          ++ (splitNl outputText).map (fun l => "   " ++ l) ++ [""]
    else []

/-- Models `html_to_rst` up to the final join: the list `rst_content` after
the walk over all allowlisted elements of the parsed forest. -/
def htmlToRst (doc : List Node) : List String :=
  (findAllL allowTags doc).flatMap emitElement

/-- Python `"\n".join(lines)`. -/
def joinLines : List String → String
  | [] => ""
  | [l] => l
  | l :: ls => l ++ "\n" ++ joinLines ls

/-- Models `html_to_rst` as in the source: the joined string. -/
def htmlToRstStr (doc : List Node) : String := joinLines (htmlToRst doc)

/-- Python word character for the ASCII range: alphanumeric or underscore
(the `\w` class of the anchor regex). -/
def pyIsWordChar (c : Char) : Bool := c.isAlphanum || c = '_'

/-- Models the anchor computation of `extract_toc_structure`:
`re.sub` removing every character not in `\w`, `\s` or hyphen from the
lowercased text, then `str.replace` turning each space character into a
hyphen. -/
def anchorOf (text : String) : String :=
  String.mk
    (((text.data.map Char.toLower).filter
        (fun c => pyIsWordChar c || pyIsSpace c || c = '-')).map
      (fun c => if c = ' ' then '-' else c))

/-- Models `extract_toc_structure`: one `(level, text, anchor)` triple per
heading with non-empty stripped text. -/
def extractTocStructure (doc : List Node) : List (Nat × String × String) :=
  (findAllL headingTags doc).filterMap (fun h =>
    match h with
    | .text _ => none
    | .elem name _ cs =>
      let text := pyStrip (getTextL cs)
      if text = "" then none
      else some (headingLevel name, text, anchorOf text))

/-- Helper for `anchorSpecOf`: copies characters, but emits exactly one
hyphen per maximal run of whitespace characters (the flag records whether
the previous character was whitespace). -/
def collapseWsAux : Bool → List Char → List Char
  | _, [] => []
  | inRun, c :: cs =>
    if pyIsSpace c then
      if inRun then collapseWsAux true cs
      else '-' :: collapseWsAux true cs
    else c :: collapseWsAux false cs

/-- The anchor recipe as the spec words it (spec section 4.1): lowercase the
text, strip every character that is not a word character, whitespace, or
hyphen, then replace each whitespace RUN with a single hyphen.  Written for
comparison against `anchorOf`, which embeds the source. -/
def anchorSpecOf (text : String) : String :=
  String.mk
    (collapseWsAux false
      ((text.data.map Char.toLower).filter
        (fun c => pyIsWordChar c || pyIsSpace c || c = '-')))

/-- The amended anchor recipe, written as one direct pass: lowercase each
character, drop those that are not word/whitespace/hyphen, and map each
space character to a hyphen (so a run of N spaces yields N hyphens, and
non-space whitespace is kept as is). -/
def anchorAmendedRec : List Char → List Char
  | [] => []
  | c :: cs =>
    let d := c.toLower
    if pyIsWordChar d || pyIsSpace d || d = '-' then
      (if d = ' ' then '-' else d) :: anchorAmendedRec cs
    else anchorAmendedRec cs

/-- A file-system state: the set of existing directories and the file
contents by path. -/
structure FS where
  dirs : List String
  files : String → Option String

/-- Models `os.makedirs(p, exist_ok=existOk)`: raises `FileExistsError`
when the directory exists and `existOk` is false, otherwise succeeds. -/
def FS.mkdir (fs : FS) (p : String) (existOk : Bool) : Except String FS :=
  if p ∈ fs.dirs then
    if existOk then .ok fs else .error ("FileExistsError: " ++ p)
  else .ok { fs with dirs := p :: fs.dirs }

/-- Models `open(p, mode=w)` followed by `f.write(c)`: an unconditional
overwrite of the file at `p`. -/
def FS.write (fs : FS) (p c : String) : FS :=
  { fs with files := fun q => if q = p then some c else fs.files q }

/-- Models `os.path.join` for the simple relative second components the
source uses. -/
def pathJoin (a b : String) : String := a ++ "/" ++ b

/-- The `conf_content` template of `create_sphinx_project`, an f-string
parameterized only by the project name. -/
def confContent (projectName : String) : String :=
  "\n# Configuration file for the Sphinx documentation builder.\n\nproject = \x27"
    ++ projectName
    ++ "\x27\ncopyright = \x272025\x27\nauthor = \x27Author\x27\nrelease = \x271.0\x27\n\n"
    ++ "# Add any Sphinx extension module names here\nextensions = [\n"
    ++ "    \x27sphinx.ext.autodoc\x27,\n    \x27sphinx.ext.viewcode\x27,\n"
    ++ "    \x27sphinx.ext.napoleon\x27,\n    \x27sphinx.ext.githubpages\x27  # For GitHub Pages deployment\n]\n\n"
    ++ "templates_path = [\x27_templates\x27]\nexclude_patterns = [\x27_build\x27, \x27Thumbs.db\x27, \x27.DS_Store\x27]\n\n"
    ++ "# HTML output options\nhtml_theme = \x27sphinx_rtd_theme\x27\nhtml_static_path = [\x27_static\x27]\n\n"
    ++ "# Theme options for better sidebar TOC\nhtml_theme_options = \x7b\n"
    ++ "    \x27navigation_depth\x27: 4,\n    \x27collapse_navigation\x27: False,\n"
    ++ "    \x27sticky_navigation\x27: True,\n    \x27includehidden\x27: True,\n"
    ++ "    \x27titles_only\x27: False,\n    \x27display_version\x27: True,\n    \x27logo_only\x27: False,\n\x7d\n\n"
    ++ "# Enable section numbering\nhtml_show_sourcelink = False\nhtml_show_sphinx = False\n"

/-- The `index_content` template of `create_sphinx_project`: title underlined
with `=` to the project name's length, then fixed toctree and indices
boilerplate. -/
def indexContent (projectName : String) : String :=
  "\n" ++ projectName ++ "\n" ++ String.mk (List.replicate projectName.length '=')
    ++ "\n\nWelcome to the documentation for " ++ projectName ++ ".\n\n"
    ++ ".. toctree::\n   :maxdepth: 3\n   :caption: Contents:\n   :numbered:\n\n   notebook_content\n\n"
    ++ "Indices and tables\n==================\n\n"
    ++ "* :ref:\x60genindex\x60\n* :ref:\x60modindex\x60\n* :ref:\x60search\x60\n"

/-- Models `create_sphinx_project`: make the project directory (tolerating
an existing one), write `conf.py` and `index.rst`, then make the `_static`
and `_templates` directories.  Any raising OS call propagates as `.error`. -/
def createSphinxProject (projectName projectPath : String) (fs : FS) : Except String FS :=
  match fs.mkdir projectPath true with
  | .error e => .error e
  | .ok fs1 =>
    let fs2 := fs1.write (pathJoin projectPath "conf.py") (confContent projectName)
    let fs3 := fs2.write (pathJoin projectPath "index.rst") (indexContent projectName)
    match fs3.mkdir (pathJoin projectPath "_static") true with
    | .error e => .error e
    | .ok fs4 => fs4.mkdir (pathJoin projectPath "_templates") true

/-- The outcome of the external pandoc invocation in `convert_with_pandoc`:
exit 0 having written `output` to the target path, a non-zero exit
(`CalledProcessError`, possibly after writing a truncated artifact to the
target path), or the tool being absent (`FileNotFoundError`). -/
inductive PandocOutcome where
  | success (output : String)
  | calledProcessError (truncatedOutput : Option String)
  | fileNotFound

/-- Whether the outcome is one of the two caught failure cases. -/
def PandocOutcome.isFailure : PandocOutcome → Bool
  | .success _ => false
  | .calledProcessError _ => true
  | .fileNotFound => true

/-- Models `convert_with_pandoc`: returns `True` and the file system with
the pandoc output at `outputRstPath` on success; on either caught failure
returns `False`, leaving whatever pandoc did (possibly a truncated
artifact) at the path.  The temporary HTML input file is omitted from the
state: the `finally` clause unlinks it on every exit path, so it is never
present afterwards. -/
def convertWithPandoc (outputRstPath : String) (pandoc : PandocOutcome) (fs : FS) :
    Bool × FS :=
  match pandoc with
  | .success out => (true, fs.write outputRstPath out)
  | .calledProcessError truncated =>
    (false, match truncated with
            | some c => fs.write outputRstPath c
            | none => fs)
  | .fileNotFound => (false, fs)

/-- The fixed `full_rst_content` wrapper of `convert_colab_to_sphinx`:
a leading newline, the `Notebook Content` title with its `=` underline, a
blank line, the body, and a trailing newline. -/
def notebookContentWrap (body : String) : String :=
  "\nNotebook Content\n================\n\n" ++ body ++ "\n"

/-- Models `convert_colab_to_sphinx`: scaffold the project, attempt the
pandoc route on `notebook_content.rst`, and on failure overwrite that file
with the built-in walker's output wrapped in the fixed header; returns the
output directory.  The unused `tocHtml` parameter mirrors the source's
`toc_html` argument. -/
def convertColabToSphinx (notebookDoc : List Node) (tocHtml : String)
    (outputDir projectName : String) (pandoc : PandocOutcome) (fs : FS) :
    Except String (String × FS) :=
  match createSphinxProject projectName outputDir fs with
  | .error e => .error e
  | .ok fs1 =>
    let rstFilePath := pathJoin outputDir "notebook_content.rst"
    match convertWithPandoc rstFilePath pandoc fs1 with
    | (true, fs2) => .ok (outputDir, fs2)
    | (false, fs2) =>
      let notebookRst := htmlToRstStr notebookDoc
      let fullRstContent := notebookContentWrap notebookRst
      .ok (outputDir, fs2.write rstFilePath fullRstContent)

/-- The nested-list document used to exhibit duplicate emission: a `ul`
whose only `li` contains another `ul` with one `li` holding the text `X`. -/
def nestedListDoc : List Node :=
  [Node.elem "ul" []
    [Node.elem "li" []
      [Node.elem "ul" [] [Node.elem "li" [] [Node.text "X"]]]]]

/-- The heading branch of the walk, for any element whose tag name passes
the `startswith` test. -/
theorem emitElement_heading_eq (name : String) (attrs : List (String × String))
    (cs : List Node) (hh : pyStartsWithH name = true) :
    emitElement (Node.elem name attrs cs) =
      (if pyStrip (getTextL cs) = "" then []
       else
         ["", pyStrip (getTextL cs),
          String.mk (List.replicate (pyStrip (getTextL cs)).length
            (markerFor (headingLevel name))), ""]) := by
  simp only [emitElement, hh, if_true]

/-- C1: every heading `h1`..`h6` with non-empty trimmed text emits a blank
line, the trimmed text, an underline of exactly the text's character length
drawn from the marker table at index `level-1`, then a blank line; the
marker index clamps to the table's last entry for level at least 7. -/
theorem heading_underline_c1 :
    (∀ name attrs cs, name ∈ headingTags →
      pyStrip (getTextL cs) ≠ "" →
      emitElement (Node.elem name attrs cs) =
        ["", pyStrip (getTextL cs),
         String.mk (List.replicate (pyStrip (getTextL cs)).length
           (markerFor (headingLevel name))), ""] ∧
      (String.mk (List.replicate (pyStrip (getTextL cs)).length
          (markerFor (headingLevel name)))).length =
        (pyStrip (getTextL cs)).length) ∧
    (∀ level, level ≤ 7 → markerFor level = markers.getD (level - 1) '=') ∧
    (∀ level, 7 ≤ level → markerFor level = markers.getD (markers.length - 1) '=') := by
  refine ⟨?_, ?_, ?_⟩
  · intro name attrs cs hname htext
    constructor
    · have hh : pyStartsWithH name = true := by
        fin_cases hname <;> decide
      rw [emitElement_heading_eq name attrs cs hh, if_neg htext]
    · simp
  · intro level hl
    have hlen : markers.length = 7 := by decide
    have hmin : min (level - 1) (markers.length - 1) = level - 1 := by omega
    unfold markerFor
    rw [hmin]
  · intro level hl
    have hlen : markers.length = 7 := by decide
    have hmin : min (level - 1) (markers.length - 1) = markers.length - 1 := by omega
    unfold markerFor
    rw [hmin]

/-- Witness for C1 at a concrete `h3` heading, at level 3, and at
level 9. -/
theorem heading_underline_c1_witness :
    emitElement (Node.elem "h3" [] [Node.text " Hi "]) = ["", "Hi", "^^", ""] ∧
    markerFor 3 = '^' ∧ markerFor 9 = '+' := by
  refine ⟨?_, ?_, ?_⟩
  · have h := (heading_underline_c1.1 "h3" [] [Node.text " Hi "]
      (by decide) (by decide)).1
    simpa using h
  · have h := heading_underline_c1.2.1 3 (by decide)
    simpa using h
  · have h := heading_underline_c1.2.2 9 (by decide)
    simpa using h

/-- C2: in an ordered list, the number emitted for a direct `li` child is
its 1-based enumeration position among all direct `li` children, so skipped
empty items still consume a position; on items `A`, empty, `B` the walk
emits exactly `1. A`, `3. B` and one blank line. -/
theorem ol_enumeration_c2 :
    (∀ attrs cs (i : Nat) (nd : Node), (directLis cs)[i]? = some nd →
      pyStrip (getTextN nd) ≠ "" →
      (toString (i + 1) ++ ". " ++ pyStrip (getTextN nd)) ∈
        emitElement (Node.elem "ol" attrs cs)) ∧
    emitElement (Node.elem "ol" []
      [Node.elem "li" [] [Node.text "A"], Node.elem "li" [] [],
       Node.elem "li" [] [Node.text "B"]]) = ["1. A", "3. B", ""] := by
  constructor
  · intro attrs cs i nd hget ht
    have hol : pyStartsWithH "ol" = false := by decide
    simp only [emitElement, hol, Bool.false_eq_true, if_false, or_true, if_true]
    apply List.mem_append_left
    refine List.mem_filterMap.mpr ⟨(i, nd), List.mk_mem_enum_iff_getElem?.mpr hget, ?_⟩
    simp [ht]
  · decide

/-- Witness for C2: the third item of the concrete list is emitted as
`3. B`. -/
theorem ol_enumeration_c2_witness :
    ("3. B") ∈ emitElement (Node.elem "ol" []
      [Node.elem "li" [] [Node.text "A"], Node.elem "li" [] [],
       Node.elem "li" [] [Node.text "B"]]) := by
  have h := ol_enumeration_c2.1 []
    [Node.elem "li" [] [Node.text "A"], Node.elem "li" [] [],
     Node.elem "li" [] [Node.text "B"]] 2 (Node.elem "li" [] [Node.text "B"])
    (by rfl) (by decide)
  simpa using h

/-- C3: a `pre` element with non-empty trimmed text emits the fixed Python
code-block directive, a blank line, every line of the raw (untrimmed) text
prefixed by exactly three spaces, and a trailing blank line; in particular
the two-line example behaves as stated. -/
theorem pre_code_block_c3 :
    (∀ attrs cs, pyStrip (getTextL cs) ≠ "" →
      emitElement (Node.elem "pre" attrs cs) =
        [".. code-block:: python", ""]
          ++ (splitNl (getTextL cs)).map (fun l => "   " ++ l) ++ [""]) ∧
    emitElement (Node.elem "pre" [] [Node.text "x = 1\ny = 2"]) =
      [".. code-block:: python", "", "   x = 1", "   y = 2", ""] := by
  constructor
  · intro attrs cs h
    have hp : pyStartsWithH "pre" = false := by decide
    simp [emitElement, hp, h]
  · decide

/-- Witness for C3 at the concrete two-line code block. -/
theorem pre_code_block_c3_witness :
    emitElement (Node.elem "pre" [] [Node.text "x = 1\ny = 2"]) =
      [".. code-block:: python", ""]
        ++ (splitNl (getTextL [Node.text "x = 1\ny = 2"])).map (fun l => "   " ++ l)
        ++ [""] :=
  pre_code_block_c3.1 [] [Node.text "x = 1\ny = 2"] (by decide)

/-- C4: a heading, paragraph, preformatted block, or output-class div whose
text content strips to empty emits zero output lines. -/
theorem empty_skip_c4 :
    ∀ name attrs cs,
      (name ∈ headingTags ∨ name = "p" ∨ name = "pre" ∨
        (name = "div" ∧ "output" ∈ classTokens attrs)) →
      pyStrip (getTextL cs) = "" →
      emitElement (Node.elem name attrs cs) = [] := by
  intro name attrs cs hname htext
  rcases hname with hmem | hp | hpre | ⟨hdiv, hout⟩
  · fin_cases hmem <;>
      rw [emitElement_heading_eq _ _ _ (by decide), if_pos htext]
  · subst hp
    have hh : pyStartsWithH "p" = false := by decide
    simp [emitElement, hh, htext]
  · subst hpre
    have hh : pyStartsWithH "pre" = false := by decide
    simp [emitElement, hh, htext]
  · subst hdiv
    have hh : pyStartsWithH "div" = false := by decide
    simp [emitElement, hh, htext, hout]

/-- Witness for C4: a whitespace-only paragraph emits nothing. -/
theorem empty_skip_c4_witness :
    emitElement (Node.elem "p" [] [Node.text " \t "]) = [] :=
  empty_skip_c4 "p" [] [Node.text " \t "] (Or.inr (Or.inl rfl)) (by decide)

/-- C9: the walk is a flat scan over all allowlisted descendants, so an
allowlisted element nested inside another allowlisted container is visited
independently: on the nested-list document both the outer and the inner
`ul` are matched, and the text `X` is emitted twice. -/
theorem nested_duplicate_c9 :
    (findAllL allowTags nestedListDoc).length = 2 ∧
    htmlToRst nestedListDoc = ["* X", "", "* X", ""] ∧
    (htmlToRst nestedListDoc).count "* X" = 2 := by decide

/-- C10: elements with tag name `code` are in the walk's allowlist but fall
through every handler branch and contribute zero output lines. -/
theorem code_tag_inert_c10 :
    "code" ∈ allowTags ∧
    ∀ attrs cs, emitElement (Node.elem "code" attrs cs) = [] := by
  constructor
  · decide
  · intro attrs cs
    have hh : pyStartsWithH "code" = false := by decide
    simp [emitElement, hh]

/-- C8 counterexample: on the heading text `A  B` (two spaces) the source
anchor maps each space to its own hyphen, giving `a--b`, while the claimed
whitespace-run collapse would give `a-b`. -/
theorem anchor_c8_counterexample :
    extractTocStructure [Node.elem "h1" [] [Node.text "A  B"]] =
      [(1, "A  B", "a--b")] ∧
    anchorSpecOf "A  B" = "a-b" ∧
    anchorOf "A  B" ≠ anchorSpecOf "A  B" := by decide

/-- List form of the amended anchor recipe agreeing with the source's
map-filter-map composition. -/
theorem anchorAmendedRec_eq (l : List Char) :
    ((l.map Char.toLower).filter
        (fun c => pyIsWordChar c || pyIsSpace c || c = '-')).map
      (fun c => if c = ' ' then '-' else c) = anchorAmendedRec l := by
  induction l with
  | nil => rfl
  | cons c cs ih =>
    simp only [anchorAmendedRec, List.map_cons, List.filter_cons]
    by_cases h : (pyIsWordChar c.toLower || pyIsSpace c.toLower || c.toLower = '-') = true
    · simp [h, ih]
    · simp [h, ih]

/-- C8 amended: the structure-extraction helper computes each heading's
anchor by lowercasing the text, stripping every character that is not a
word character, whitespace, or hyphen, and then replacing each space
character (not each whitespace run) with a single hyphen. -/
theorem anchor_c8_amended :
    (∀ text : String, anchorOf text = String.mk (anchorAmendedRec text.data)) ∧
    (∀ (doc : List Node) (lvl : Nat) (t a : String),
      (lvl, t, a) ∈ extractTocStructure doc → a = anchorOf t) := by
  constructor
  · intro text
    exact congrArg String.mk (anchorAmendedRec_eq text.data)
  · intro doc lvl t a hmem
    unfold extractTocStructure at hmem
    rcases List.mem_filterMap.mp hmem with ⟨nd, -, hg⟩
    cases nd with
    | text s => simp at hg
    | elem name attrs cs =>
      by_cases h : pyStrip (getTextL cs) = ""
      · simp [h] at hg
      · simp only [h, if_false, Option.some.injEq, Prod.mk.injEq] at hg
        obtain ⟨-, h2, h3⟩ := hg
        rw [← h3, h2]

/-- Witness for C8's amended claim at the concrete two-space heading. -/
theorem anchor_c8_amended_witness :
    (1, "A  B", "a--b") ∈
      extractTocStructure [Node.elem "h1" [] [Node.text "A  B"]] ∧
    "a--b" = anchorOf "A  B" := by
  refine ⟨by decide, ?_⟩
  exact anchor_c8_amended.2 [Node.elem "h1" [] [Node.text "A  B"]] 1 "A  B" "a--b"
    (by decide)

/-- Writing does not change the directory set. -/
theorem FS.write_dirs (fs : FS) (p c : String) : (fs.write p c).dirs = fs.dirs := rfl

/-- After a write, the written path holds the written content. -/
theorem FS.write_files_self (fs : FS) (p c : String) :
    (fs.write p c).files p = some c := by
  simp [FS.write]

/-- A write leaves every other path unchanged. -/
theorem FS.write_files_ne (fs : FS) (p c q : String) (h : q ≠ p) :
    (fs.write p c).files q = fs.files q := by
  simp [FS.write, h]

/-- Overwriting a file with the content it already holds is a no-op. -/
theorem FS.write_eq_self (fs : FS) (p c : String) (h : fs.files p = some c) :
    fs.write p c = fs := by
  cases fs with
  | mk dirs files =>
    simp only [FS.write, FS.mk.injEq, true_and]
    funext q
    by_cases hq : q = p
    · subst hq; simpa using h.symm
    · simp [hq]

/-- Making a directory with `exist_ok=True` never raises; it keeps the
files, keeps every existing directory, and ensures the requested one
exists. -/
theorem FS.mkdir_ok (fs : FS) (p : String) :
    ∃ fs2, fs.mkdir p true = .ok fs2 ∧ fs2.files = fs.files ∧
      (∀ q, q ∈ fs.dirs → q ∈ fs2.dirs) ∧ p ∈ fs2.dirs := by
  by_cases h : p ∈ fs.dirs
  · exact ⟨fs, by simp [FS.mkdir, h], rfl, fun q hq => hq, h⟩
  · refine ⟨{ fs with dirs := p :: fs.dirs }, by simp [FS.mkdir, h], rfl, ?_, ?_⟩
    · intro q hq; exact List.mem_cons_of_mem _ hq
    · exact List.mem_cons_self _ _

/-- Making a directory with `exist_ok=True` when it already exists is the
identity. -/
theorem FS.mkdir_of_mem (fs : FS) (p : String) (h : p ∈ fs.dirs) :
    fs.mkdir p true = .ok fs := by
  simp [FS.mkdir, h]

/-- Joined paths with same-prefix but different-length last components
differ. -/
theorem pathJoin_ne (p a b : String) (h : a.length ≠ b.length) :
    pathJoin p a ≠ pathJoin p b := by
  intro he
  apply h
  have h2 := congrArg String.length he
  simp only [pathJoin, String.length_append] at h2
  omega

/-- Running `create_sphinx_project` never raises, running it again from the
resulting state returns that state unchanged, and the two generated files
hold exactly the templates instantiated with the project name. -/
theorem createSphinxProject_run (projectName projectPath : String) (fs : FS) :
    ∃ fs1, createSphinxProject projectName projectPath fs = .ok fs1 ∧
      createSphinxProject projectName projectPath fs1 = .ok fs1 ∧
      fs1.files (pathJoin projectPath "conf.py") = some (confContent projectName) ∧
      fs1.files (pathJoin projectPath "index.rst") = some (indexContent projectName) := by
  obtain ⟨fsA, hA, hAfiles, hAsub, hAmem⟩ := FS.mkdir_ok fs projectPath
  obtain ⟨fsD, hD, hDfiles, hDsub, hDmem⟩ :=
    FS.mkdir_ok
      ((fsA.write (pathJoin projectPath "conf.py") (confContent projectName)).write
        (pathJoin projectPath "index.rst") (indexContent projectName))
      (pathJoin projectPath "_static")
  obtain ⟨fsE, hE, hEfiles, hEsub, hEmem⟩ :=
    FS.mkdir_ok fsD (pathJoin projectPath "_templates")
  have hne : pathJoin projectPath "conf.py" ≠ pathJoin projectPath "index.rst" :=
    pathJoin_ne projectPath "conf.py" "index.rst" (by decide)
  have hconf : fsE.files (pathJoin projectPath "conf.py") = some (confContent projectName) := by
    rw [hEfiles, hDfiles,
      FS.write_files_ne _ _ _ _ hne, FS.write_files_self]
  have hidx : fsE.files (pathJoin projectPath "index.rst") = some (indexContent projectName) := by
    rw [hEfiles, hDfiles, FS.write_files_self]
  have hdirPath : projectPath ∈ fsE.dirs := hEsub _ (hDsub _ hAmem)
  have hdirStatic : pathJoin projectPath "_static" ∈ fsE.dirs := hEsub _ hDmem
  have hdirTempl : pathJoin projectPath "_templates" ∈ fsE.dirs := hEmem
  refine ⟨fsE, ?_, ?_, hconf, hidx⟩
  · unfold createSphinxProject
    rw [hA]
    dsimp only
    rw [hD]
    dsimp only
    exact hE
  · unfold createSphinxProject
    rw [FS.mkdir_of_mem fsE projectPath hdirPath]
    dsimp only
    rw [FS.write_eq_self fsE _ _ hconf, FS.write_eq_self fsE _ _ hidx,
      FS.mkdir_of_mem fsE _ hdirStatic]
    dsimp only
    exact FS.mkdir_of_mem fsE _ hdirTempl

/-- C5: running the scaffolder twice with the same project name and path
does not raise; the second run returns the first run's state unchanged, and
the configuration and index files hold contents that are a function of the
project name alone. -/
theorem scaffold_idempotent_c5 (projectName projectPath : String) (fs : FS) :
    ∃ fs1, createSphinxProject projectName projectPath fs = .ok fs1 ∧
      createSphinxProject projectName projectPath fs1 = .ok fs1 ∧
      fs1.files (pathJoin projectPath "conf.py") = some (confContent projectName) ∧
      fs1.files (pathJoin projectPath "index.rst") = some (indexContent projectName) :=
  createSphinxProject_run projectName projectPath fs

/-- C6: the conversion orchestrator's entire result is independent of the
table-of-contents input; two runs differing only in it are equal. -/
theorem toc_independence_c6 (notebookDoc : List Node) (tocHtml1 tocHtml2 : String)
    (outputDir projectName : String) (pandoc : PandocOutcome) (fs : FS) :
    convertColabToSphinx notebookDoc tocHtml1 outputDir projectName pandoc fs =
      convertColabToSphinx notebookDoc tocHtml2 outputDir projectName pandoc fs := rfl

/-- C7: whenever the pandoc route fails (non-zero exit, with or without a
truncated artifact, or tool absent), the orchestrator writes exactly the
walker's output wrapped in the fixed header to the output file, overwriting
any partial artifact, and still returns the output directory. -/
theorem pandoc_fallback_c7 (notebookDoc : List Node)
    (tocHtml outputDir projectName : String) (pandoc : PandocOutcome) (fs : FS)
    (hfail : pandoc.isFailure = true) :
    ∃ fs2, convertColabToSphinx notebookDoc tocHtml outputDir projectName pandoc fs =
        .ok (outputDir, fs2) ∧
      fs2.files (pathJoin outputDir "notebook_content.rst") =
        some (notebookContentWrap (htmlToRstStr notebookDoc)) := by
  obtain ⟨fs1, h1, -, -, -⟩ := createSphinxProject_run projectName outputDir fs
  unfold convertColabToSphinx
  rw [h1]
  dsimp only
  cases pandoc with
  | success o => simp [PandocOutcome.isFailure] at hfail
  | calledProcessError truncated =>
    cases truncated with
    | none => exact ⟨_, rfl, FS.write_files_self _ _ _⟩
    | some c => exact ⟨_, rfl, FS.write_files_self _ _ _⟩
  | fileNotFound => exact ⟨_, rfl, FS.write_files_self _ _ _⟩

/-- Witness for C7: a failed pandoc run that left a truncated artifact at
the output path is fully overwritten by the wrapped walker output. -/
theorem pandoc_fallback_c7_witness :
    (PandocOutcome.calledProcessError (some "truncated")).isFailure = true ∧
    ∃ fs2, convertColabToSphinx [Node.elem "p" [] [Node.text "Hi"]] "<ul></ul>"
        "out" "Proj" (PandocOutcome.calledProcessError (some "truncated"))
        ⟨[], fun _ => none⟩ =
        .ok ("out", fs2) ∧
      fs2.files (pathJoin "out" "notebook_content.rst") =
        some (notebookContentWrap (htmlToRstStr [Node.elem "p" [] [Node.text "Hi"]])) :=
  ⟨rfl, pandoc_fallback_c7 [Node.elem "p" [] [Node.text "Hi"]] "<ul></ul>" "out" "Proj"
    (PandocOutcome.calledProcessError (some "truncated")) ⟨[], fun _ => none⟩ rfl⟩
